import Mathlib

/-!
Verification development for the Speed-Racers policy-optimization core.

The source is shallowly embedded: C++ `float` arithmetic is modelled by exact
rational arithmetic (`ℚ`), the trigonometric library calls (`cos`, `sin`,
`atan2`) are abstracted into a `Trig` record of rational-valued functions, and
`std::sqrt`-based distance comparisons against non-negative thresholds are
expressed on squared distances (`dist < c` iff `dist² < c²` for `c ≥ 0`, since
both sides are non-negative and squaring is monotone).  `while` loops over
rationals are embedded as well-founded recursions with the same guard and the
same body; the bounded rollout loop is embedded as recursion on the remaining
step budget.

Two variants of the engine exist in the repository and both are embedded:
  * the genetic-algorithm variant (waypoint chasing), `...GA` definitions;
  * the particle-swarm variant (checkpoint chasing), `...PSO` definitions.
-/

namespace SpeedRacers

/-- `PI` constant from the source (`3.14159265f`), as an exact rational. -/
def piQ : ℚ := 314159265 / 100000000

/-- `NUM_ANGLE_STATES = 36` (10-degree bins). -/
def NUM_ANGLE_STATES : ℤ := 36

/-- `NUM_SPEED_STATES = 6`. -/
def NUM_SPEED_STATES : ℤ := 6

/-- `NUM_ACTIONS = 5`. -/
def NUM_ACTIONS : ℤ := 5

/-- `degToRad`: `deg * PI / 180.0f`. -/
def degToRad (deg : ℚ) : ℚ := deg * piQ / 180

/-- Squared distance between two points; the source's `distance` is
`sqrt(dx*dx + dy*dy)` and is only ever compared against non-negative
quantities, so all comparisons below are done on squares. -/
def dist2 (a b : ℚ × ℚ) : ℚ :=
  (a.1 - b.1) * (a.1 - b.1) + (a.2 - b.2) * (a.2 - b.2)

/-- `std::clamp(v, lo, hi)`. -/
def clampQ (v lo hi : ℚ) : ℚ :=
  if v < lo then lo else if hi < v then hi else v

/-- First loop of the source's angle normalization:
`while (angle < 0.f) angle += 360.f;`. -/
def raiseAngle (a : ℚ) : ℚ :=
  if h : a < 0 then raiseAngle (a + 360) else a
termination_by (⌈-a / 360⌉).toNat
decreasing_by
  have h1 : (1 : ℤ) ≤ ⌈-a / 360⌉ := by
    rw [Int.le_ceil_iff]
    push_cast
    linarith
  have h2 : ⌈-(a + 360) / 360⌉ = ⌈-a / 360⌉ - 1 := by
    rw [show -(a + 360) / 360 = -a / 360 + (-1 : ℤ) by push_cast; ring]
    rw [Int.ceil_add_int]; omega
  rw [h2]
  omega

/-- Second loop of the source's angle normalization:
`while (angle >= 360.f) angle -= 360.f;`. -/
def lowerAngle (a : ℚ) : ℚ :=
  if h : 360 ≤ a then lowerAngle (a - 360) else a
termination_by (⌊a / 360⌋).toNat
decreasing_by
  have h1 : (1 : ℤ) ≤ ⌊a / 360⌋ := by
    rw [Int.le_floor]
    push_cast
    linarith
  have h2 : ⌊(a - 360) / 360⌋ = ⌊a / 360⌋ - 1 := by
    rw [show (a - 360) / 360 = a / 360 + (-1 : ℤ) by push_cast; ring]
    rw [Int.floor_add_int]; omega
  rw [h2]
  omega

/-- The full orientation-normalization idiom used throughout the source
(`applyAction`, `setOrientation`, `angleToDiscrete`). -/
def normAngle (a : ℚ) : ℚ := lowerAngle (raiseAngle a)

theorem raiseAngle_nonneg (a : ℚ) : 0 ≤ raiseAngle a := by
  induction a using raiseAngle.induct with
  | case1 a h ih => rw [raiseAngle, dif_pos h]; exact ih
  | case2 a h => rw [raiseAngle, dif_neg h]; linarith

theorem raiseAngle_congr (a : ℚ) : ∃ m : ℤ, raiseAngle a = a + 360 * m := by
  induction a using raiseAngle.induct with
  | case1 a h ih =>
    obtain ⟨m, hm⟩ := ih
    exact ⟨m + 1, by rw [raiseAngle, dif_pos h, hm]; push_cast; ring⟩
  | case2 a h => exact ⟨0, by rw [raiseAngle, dif_neg h]; ring⟩

theorem lowerAngle_lt (a : ℚ) : lowerAngle a < 360 := by
  induction a using lowerAngle.induct with
  | case1 a h ih => rw [lowerAngle, dif_pos h]; exact ih
  | case2 a h => rw [lowerAngle, dif_neg h]; linarith

theorem lowerAngle_nonneg (a : ℚ) (ha : 0 ≤ a) : 0 ≤ lowerAngle a := by
  induction a using lowerAngle.induct with
  | case1 a h ih => rw [lowerAngle, dif_pos h]; exact ih (by linarith)
  | case2 a h => rw [lowerAngle, dif_neg h]; exact ha

theorem lowerAngle_congr (a : ℚ) : ∃ m : ℤ, lowerAngle a = a + 360 * m := by
  induction a using lowerAngle.induct with
  | case1 a h ih =>
    obtain ⟨m, hm⟩ := ih
    exact ⟨m - 1, by rw [lowerAngle, dif_pos h, hm]; push_cast; ring⟩
  | case2 a h => exact ⟨0, by rw [lowerAngle, dif_neg h]; ring⟩

theorem normAngle_nonneg (a : ℚ) : 0 ≤ normAngle a :=
  lowerAngle_nonneg _ (raiseAngle_nonneg a)

theorem normAngle_lt (a : ℚ) : normAngle a < 360 := lowerAngle_lt _

theorem normAngle_congr (a : ℚ) : ∃ m : ℤ, normAngle a = a + 360 * m := by
  obtain ⟨m₁, h₁⟩ := raiseAngle_congr a
  obtain ⟨m₂, h₂⟩ := lowerAngle_congr (raiseAngle a)
  exact ⟨m₁ + m₂, by rw [normAngle, h₂, h₁]; push_cast; ring⟩

/-- A value in `[0, 360)` congruent to `a` modulo `360` is unique, so the
normalization only depends on the residue class of `a`. -/
theorem normAngle_add_int_mul (a : ℚ) (k : ℤ) :
    normAngle (a + 360 * k) = normAngle a := by
  obtain ⟨m₁, h₁⟩ := normAngle_congr (a + 360 * k)
  obtain ⟨m₂, h₂⟩ := normAngle_congr a
  have hdiff : normAngle (a + 360 * k) - normAngle a = 360 * ((k + m₁ - m₂ : ℤ) : ℚ) := by
    rw [h₁, h₂]; push_cast; ring
  have hb₁ := normAngle_nonneg (a + 360 * k)
  have hb₂ := normAngle_nonneg a
  have hl₁ := normAngle_lt (a + 360 * k)
  have hl₂ := normAngle_lt a
  have hz : (k + m₁ - m₂ : ℤ) = 0 := by
    by_contra hne
    rcases lt_or_gt_of_ne hne with hlt | hgt
    · have hle : (k + m₁ - m₂ : ℤ) ≤ -1 := by omega
      have : ((k + m₁ - m₂ : ℤ) : ℚ) ≤ -1 := by exact_mod_cast hle
      nlinarith
    · have : (1 : ℚ) ≤ ((k + m₁ - m₂ : ℤ) : ℚ) := by exact_mod_cast hgt
      nlinarith
  have : normAngle (a + 360 * k) - normAngle a = 0 := by rw [hdiff, hz]; norm_num
  linarith

theorem normAngle_of_mem (a : ℚ) (h0 : 0 ≤ a) (h1 : a < 360) : normAngle a = a := by
  rw [normAngle, raiseAngle, dif_neg (by linarith), lowerAngle, dif_neg (by linarith)]

/-- `angleToDiscrete` from the source: normalize the angle into `[0, 360)` by
the two `while` loops, then `static_cast<int>(angle / 10.f) % NUM_ANGLE_STATES`.
The cast truncates toward zero, which on the non-negative normalized angle is
the floor; `%` on non-negative operands is `Int.emod`. -/
def angleToDiscrete (angle : ℚ) : ℤ :=
  (⌊normAngle angle / 10⌋) % NUM_ANGLE_STATES

/-- `speedToDiscrete` from the source: `std::floor` then clamp to
`[0, NUM_SPEED_STATES - 1]`.  `std::clamp` on `int`. -/
def speedToDiscrete (speed : ℚ) : ℤ :=
  let speedState := ⌊speed⌋
  if speedState < 0 then 0
  else if NUM_SPEED_STATES - 1 < speedState then NUM_SPEED_STATES - 1
  else speedState

theorem angleToDiscrete_nonneg (a : ℚ) : 0 ≤ angleToDiscrete a :=
  Int.emod_nonneg _ (by norm_num [NUM_ANGLE_STATES])

theorem angleToDiscrete_lt (a : ℚ) : angleToDiscrete a < 36 :=
  Int.emod_lt_of_pos _ (by norm_num [NUM_ANGLE_STATES])

theorem speedToDiscrete_nonneg (v : ℚ) : 0 ≤ speedToDiscrete v := by
  unfold speedToDiscrete
  dsimp only
  split_ifs <;> simp_all [NUM_SPEED_STATES]

theorem speedToDiscrete_le (v : ℚ) : speedToDiscrete v ≤ 5 := by
  unfold speedToDiscrete
  dsimp only
  split_ifs <;> simp_all [NUM_SPEED_STATES]

/-- Abstraction of the trigonometric library functions used by the source
(`std::cos`, `std::sin`, `std::atan2`), as arbitrary rational-valued
functions.  No theorem below depends on their analytic properties. -/
structure Trig where
  cos : ℚ → ℚ
  sin : ℚ → ℚ
  atan2 : ℚ → ℚ → ℚ

/-- A concrete instantiation of the trigonometric abstraction used for the
closed evaluations below: heading vector (1, 0) for every angle and a zero
`atan2`. -/
def trig0 : Trig := ⟨fun _ => 1, fun _ => 0, fun _ _ => 0⟩

/-- `enum Action { STEER_LEFT, STEER_RIGHT, ACCELERATE, BRAKE, NOOP }`. -/
inductive Action where
  | STEER_LEFT | STEER_RIGHT | ACCELERATE | BRAKE | NOOP
deriving DecidableEq, Repr

/-- `static_cast<Action>(bestAction)`; `chooseAction`'s loop only ever
produces indices `0..4` (proved below), so the catch-all is never consulted. -/
def actionOfNat : ℕ → Action
  | 0 => .STEER_LEFT
  | 1 => .STEER_RIGHT
  | 2 => .ACCELERATE
  | 3 => .BRAKE
  | _ => .NOOP

/-- Flat table index used by `chooseAction`:
`angleState * NUM_SPEED_STATES * NUM_ACTIONS + speedState * NUM_ACTIONS + a`. -/
def tableIndex (angleState speedState : ℤ) (a : ℕ) : ℤ :=
  angleState * (NUM_SPEED_STATES * NUM_ACTIONS) + speedState * NUM_ACTIONS + (a : ℤ)

/-- The per-action scores `chooseAction` reads from `policyWeights` at the
row of the current discretized state.  The source indexes a `std::vector`;
an out-of-range read is undefined behaviour there and is given the default
`0` here (the in-range property is proved separately). -/
def scoresOf (policy : List ℚ) (orientation speed : ℚ) (a : ℕ) : ℚ :=
  policy.getD (tableIndex (angleToDiscrete orientation) (speedToDiscrete speed) a).toNat 0

/-- The argmax scan in `chooseAction`:
`for (a = 1; a < NUM_ACTIONS; a++) if (scores[a] > maxScore) {...}`,
written with an explicit count of remaining iterations. -/
def argmaxGo (s : ℕ → ℚ) : ℕ → ℕ → ℕ → ℚ → ℕ
  | 0, _, best, _ => best
  | k + 1, a, best, maxScore =>
    if s a > maxScore then argmaxGo s k (a + 1) a (s a)
    else argmaxGo s k (a + 1) best maxScore

/-- `chooseAction`'s selection: start from action `0` and scan actions
`1..NUM_ACTIONS-1` with a strict `>` comparison (first maximum wins). -/
def selectFromScores (s : ℕ → ℚ) : ℕ := argmaxGo s 4 1 0 (s 0)

theorem argmaxGo_spec (s : ℕ → ℚ) :
    ∀ (k a best : ℕ) (maxScore : ℚ), a + k = 5 → best < a → maxScore = s best →
    (∀ j, j < a → s j ≤ maxScore) → (∀ j, j < best → s j < maxScore) →
    argmaxGo s k a best maxScore < 5 ∧
    (∀ j, j < 5 → s j ≤ s (argmaxGo s k a best maxScore)) ∧
    (∀ j, j < argmaxGo s k a best maxScore → s j < s (argmaxGo s k a best maxScore)) := by
  intro k
  induction k with
  | zero =>
    intro a best maxScore ha hb hm hmax hfirst
    refine ⟨by rw [argmaxGo]; omega, ?_, ?_⟩
    · intro j hj
      rw [argmaxGo, ← hm]
      exact hmax j (by omega)
    · intro j hj
      rw [argmaxGo] at hj ⊢
      rw [← hm]
      exact hfirst j hj
  | succ k ih =>
    intro a best maxScore ha hb hm hmax hfirst
    rw [argmaxGo]
    by_cases hgt : s a > maxScore
    · rw [if_pos hgt]
      refine ih (a + 1) a (s a) (by omega) (by omega) rfl ?_ ?_
      · intro j hj
        rcases Nat.lt_succ_iff_lt_or_eq.mp hj with hlt | heq
        · exact le_of_lt (lt_of_le_of_lt (hmax j hlt) hgt)
        · rw [heq]
      · intro j hj
        exact lt_of_le_of_lt (hmax j hj) hgt
    · rw [if_neg hgt]
      refine ih (a + 1) best maxScore (by omega) (by omega) hm ?_ hfirst
      intro j hj
      rcases Nat.lt_succ_iff_lt_or_eq.mp hj with hlt | heq
      · exact hmax j hlt
      · rw [heq]; exact le_of_not_gt hgt

theorem selectFromScores_spec (s : ℕ → ℚ) :
    selectFromScores s < 5 ∧
    (∀ j, j < 5 → s j ≤ s (selectFromScores s)) ∧
    (∀ j, j < selectFromScores s → s j < s (selectFromScores s)) := by
  exact argmaxGo_spec s 4 1 0 (s 0) rfl (by omega) rfl
    (by intro j hj; interval_cases j; rfl) (by intro j hj; omega)

/-- `TURN_SPEED = 5.f` (degrees per action). -/
def TURN_SPEED : ℚ := 5

/-- `ACCEL = 0.2f`. -/
def ACCEL : ℚ := 1 / 5

/-- `DECEL = 0.2f` — declared in both variants; the GA variant never uses it. -/
def DECEL : ℚ := 1 / 5

/-- `MAX_SPEED = 5.f`. -/
def MAX_SPEED : ℚ := 5

/-- `MAX_ZERO_SPEED_STEPS = 50` (both variants). -/
def MAX_ZERO_SPEED_STEPS : ℕ := 50

/-- `MAX_STEPS_PER_EPISODE = 100000` in the GA variant. -/
def MAX_STEPS_PER_EPISODE_GA : ℕ := 100000

/-- `MAX_STEPS_PER_EPISODE = 1000` in the PSO variant. -/
def MAX_STEPS_PER_EPISODE_PSO : ℕ := 1000

/-- The `Car` of the GA variant: mutable fields plus the stored track and
policy (the step counter and waypoint index are `int` in the source but only
ever hold non-negative values, so they are embedded as `ℕ`). -/
structure CarGA where
  position : ℚ × ℚ
  orientation : ℚ
  speed : ℚ
  done : Bool
  steps : ℕ
  targetWaypointIndex : ℕ
  trainingTrackPoints : List (ℚ × ℚ)
  policyWeights : List ℚ
deriving DecidableEq

/-- GA `Car::chooseAction` (identical in the PSO variant). -/
def chooseActionGA (c : CarGA) : ℕ :=
  selectFromScores (scoresOf c.policyWeights c.orientation c.speed)

/-- GA `Car::applyAction`.  Note the `BRAKE` case: the source executes
`speed += ACCEL;` (it adds the acceleration delta instead of subtracting
`DECEL`, which this file never uses). -/
def applyActionGA (T : Trig) (act : Action) (c : CarGA) : CarGA :=
  let os : ℚ × ℚ :=
    match act with
    | .STEER_LEFT => (c.orientation - TURN_SPEED, c.speed + ACCEL * (1 / 2))
    | .STEER_RIGHT => (c.orientation + TURN_SPEED, c.speed + ACCEL * (1 / 2))
    | .ACCELERATE => (c.orientation, c.speed + ACCEL)
    | .BRAKE => (c.orientation, c.speed + ACCEL)
    | .NOOP => (c.orientation, c.speed * (99 / 100))
  let orientation := normAngle os.1
  let speed := clampQ os.2 0 MAX_SPEED
  let rad := degToRad orientation
  { c with orientation := orientation, speed := speed,
           position := (c.position.1 + T.cos rad * speed,
                        c.position.2 + T.sin rad * speed),
           steps := c.steps + 1 }

/-- The angle-difference normalization in GA `evaluate`:
`while (angleDiff > 180.f) angleDiff = std::abs(angleDiff - 360.f);`. -/
def wrapDiff (d : ℚ) : ℚ :=
  if h : 180 < d then wrapDiff |d - 360| else d
termination_by ⌈d⌉.toNat
decreasing_by
  have hd : (181 : ℤ) ≤ ⌈d⌉ := by
    rw [Int.le_ceil_iff]
    push_cast
    linarith
  rcases le_or_lt 360 d with h3 | h3
  · have habs : |d - 360| = d - 360 := abs_of_nonneg (by linarith)
    have hstep : ⌈d - 360⌉ = ⌈d⌉ - 360 := by
      rw [show d - 360 = d + ((-360 : ℤ) : ℚ) by push_cast; ring]
      rw [Int.ceil_add_int]; omega
    rw [habs, hstep]
    omega
  · have habs : |d - 360| = 360 - d := by
      rw [abs_of_nonpos (by linarith)]; ring
    have hstep : ⌈(360 : ℚ) - d⌉ ≤ 180 := by
      rw [Int.ceil_le]
      push_cast
      linarith
    rw [habs]
    omega

/-- Local state of the GA `evaluate` loop: the car plus the local variables
`totalReward`, `zeroSpeedSteps`, `lastAngleDiff`, and a count of executed
loop iterations. -/
structure GAEvalSt where
  car : CarGA
  totalReward : ℚ
  zeroSpeedSteps : ℕ
  lastAngleDiff : ℚ
  iters : ℕ
deriving DecidableEq

/-- One iteration of the GA `evaluate` loop body.  `Sum.inl` is the
fall-through to the next iteration (after `totalReward += reward;`),
`Sum.inr` is a `break`.  Every `break` fires *before* the trailing
`totalReward += reward;`, exactly as in the source, so the locally assembled
`reward` of that final iteration (including the −100 stuck penalty, the −200
off-track penalty and the +100/+1000 waypoint and completion bonuses) is
discarded and `totalReward` is returned untouched by that iteration. -/
def gaLoopIter (T : Trig) (s : GAEvalSt) : GAEvalSt ⊕ GAEvalSt :=
  let c0 := { s.car with steps := s.car.steps + 1 }
  let c1 := applyActionGA T (actionOfNat (chooseActionGA c0)) c0
  let targetPos := c1.trainingTrackPoints.getD c1.targetWaypointIndex (0, 0)
  let distSq := dist2 c1.position targetPos
  let targetAngle := T.atan2 (targetPos.2 - c1.position.2) (targetPos.1 - c1.position.1) * 180 / piQ
  let angleDiff := wrapDiff |c1.orientation - targetAngle|
  let reward0 : ℚ := -(1 / 10)
  let reward1 := if angleDiff < s.lastAngleDiff then reward0 + 1 / 2 else reward0
  let reward2 :=
    if angleDiff < 45 then
      let rA := reward1 + (45 - angleDiff) / 45 * 2
      if c1.speed > 2 then rA + 1 else rA
    else reward1 - angleDiff / 45
  -- zero-speed bookkeeping: new `zeroSpeedSteps`, new `reward`, stuck `break`?
  let zr : ℕ × ℚ × Bool :=
    if c1.speed < 1 / 10 then
      (s.zeroSpeedSteps + 1, reward2 - 1, decide (s.zeroSpeedSteps + 1 > MAX_ZERO_SPEED_STEPS))
    else (0, reward2, false)
  if zr.2.2 then
    .inr { car := { c1 with done := true }, totalReward := s.totalReward,
           zeroSpeedSteps := zr.1, lastAngleDiff := angleDiff, iters := s.iters + 1 }
  else if distSq > 200 * 200 then
    .inr { car := { c1 with done := true }, totalReward := s.totalReward,
           zeroSpeedSteps := zr.1, lastAngleDiff := angleDiff, iters := s.iters + 1 }
  else if distSq < 20 * 20 then
    let c2 := { c1 with targetWaypointIndex := c1.targetWaypointIndex + 1 }
    if c2.targetWaypointIndex ≥ c2.trainingTrackPoints.length then
      .inr { car := { c2 with done := true }, totalReward := s.totalReward,
             zeroSpeedSteps := zr.1, lastAngleDiff := angleDiff, iters := s.iters + 1 }
    else
      .inl { car := c2, totalReward := s.totalReward + (zr.2.1 + 100),
             zeroSpeedSteps := zr.1, lastAngleDiff := angleDiff, iters := s.iters + 1 }
  else
    .inl { car := c1, totalReward := s.totalReward + zr.2.1,
           zeroSpeedSteps := zr.1, lastAngleDiff := angleDiff, iters := s.iters + 1 }

/-- The `while (!done && steps < MAX_STEPS_PER_EPISODE)` loop of GA
`Car::evaluate`, by recursion on the remaining step budget (the loop
increases `steps` by two per iteration — once at the loop head, once inside
`applyAction` — so a budget of `MAX_STEPS_PER_EPISODE` iterations is never
exhausted before the guard fails). -/
def evalLoopGA (T : Trig) : ℕ → GAEvalSt → GAEvalSt
  | 0, s => s
  | fuel + 1, s =>
    if s.car.done = false ∧ s.car.steps < MAX_STEPS_PER_EPISODE_GA then
      match gaLoopIter T s with
      | .inl s' => evalLoopGA T fuel s'
      | .inr s' => s'
    else s

/-- Result of one `evaluate` call: the returned pair plus the final car state
and the number of loop iterations executed. -/
structure GAEvalOut where
  reward : ℚ
  success : Bool
  car : CarGA
  iters : ℕ
deriving DecidableEq

/-- GA `Car::evaluate` (it does not call `reset`; it only zeroes `steps` and
its local variables, and finally reports
`targetWaypointIndex >= trainingTrackPoints.size()` as the success flag). -/
def evaluateGA (T : Trig) (c : CarGA) : GAEvalOut :=
  let s := evalLoopGA T MAX_STEPS_PER_EPISODE_GA
    { car := { c with steps := 0 }, totalReward := 0, zeroSpeedSteps := 0,
      lastAngleDiff := 360, iters := 0 }
  let car := if s.car.steps ≥ MAX_STEPS_PER_EPISODE_GA then { s.car with done := true } else s.car
  { reward := s.totalReward,
    success := decide (car.targetWaypointIndex ≥ car.trainingTrackPoints.length),
    car := car, iters := s.iters }

/-- GA `Car::reset`: `position = trainingTrackPoints[0]` has no valid result
when the track is empty (the source performs an out-of-bounds vector access
there), hence the `Option`. -/
def resetGA (c : CarGA) : Option CarGA :=
  match c.trainingTrackPoints with
  | [] => none
  | p0 :: _ => some { c with position := p0, orientation := 0, speed := 0,
                             done := false, steps := 0, targetWaypointIndex := 0 }

/-- Construction-then-evaluation as performed by the GA training loop: the
`Car` constructor calls `reset`, and `evaluate` is invoked on the fresh car. -/
def evaluateGAFresh (T : Trig) (c : CarGA) : Option GAEvalOut :=
  (resetGA c).map (evaluateGA T)

theorem gaLoopIter_iters (T : Trig) (s : GAEvalSt) :
    (gaLoopIter T s).elim GAEvalSt.iters GAEvalSt.iters = s.iters + 1 := by
  unfold gaLoopIter
  lift_lets
  extract_lets
  dsimp only
  split_ifs <;> rfl

theorem evalLoopGA_iters_le (T : Trig) :
    ∀ fuel s, (evalLoopGA T fuel s).iters ≤ s.iters + fuel := by
  intro fuel
  induction fuel with
  | zero =>
    intro s
    have h0 : evalLoopGA T 0 s = s := rfl
    rw [h0]
    omega
  | succ fuel ih =>
    intro s
    have hstep : evalLoopGA T (fuel + 1) s =
        if s.car.done = false ∧ s.car.steps < MAX_STEPS_PER_EPISODE_GA then
          (match gaLoopIter T s with
           | .inl s' => evalLoopGA T fuel s'
           | .inr s' => s')
        else s := rfl
    rw [hstep]
    by_cases hguard : s.car.done = false ∧ s.car.steps < MAX_STEPS_PER_EPISODE_GA
    · rw [if_pos hguard]
      have helim := gaLoopIter_iters T s
      rcases hres : gaLoopIter T s with s' | s'
      · rw [hres] at helim
        simp only [Sum.elim_inl] at helim
        exact (ih s').trans (by omega)
      · rw [hres] at helim
        simp only [Sum.elim_inr] at helim
        show s'.iters ≤ s.iters + (fuel + 1)
        omega
    · rw [if_neg hguard]
      omega

/-- The `Car` of the PSO variant: as in the GA variant plus the recorded
`path` and the stored checkpoint list; the waypoint index is named
`currentCheckpoint`. -/
structure CarPSO where
  position : ℚ × ℚ
  orientation : ℚ
  speed : ℚ
  done : Bool
  steps : ℕ
  currentCheckpoint : ℕ
  path : List (ℚ × ℚ)
  trainingTrackPoints : List (ℚ × ℚ)
  checkpointPositions : List (ℚ × ℚ)
  policyWeights : List ℚ
deriving DecidableEq

/-- PSO `Car::chooseAction` — textually identical to the GA one. -/
def chooseActionPSO (c : CarPSO) : ℕ :=
  selectFromScores (scoresOf c.policyWeights c.orientation c.speed)

/-- PSO `Car::applyAction`.  Unlike the GA variant, `BRAKE` executes
`speed -= DECEL;`; the new position is additionally appended to `path`. -/
def applyActionPSO (T : Trig) (act : Action) (c : CarPSO) : CarPSO :=
  let os : ℚ × ℚ :=
    match act with
    | .STEER_LEFT => (c.orientation - TURN_SPEED, c.speed + ACCEL * (1 / 2))
    | .STEER_RIGHT => (c.orientation + TURN_SPEED, c.speed + ACCEL * (1 / 2))
    | .ACCELERATE => (c.orientation, c.speed + ACCEL)
    | .BRAKE => (c.orientation, c.speed - DECEL)
    | .NOOP => (c.orientation, c.speed * (99 / 100))
  let orientation := normAngle os.1
  let speed := clampQ os.2 0 MAX_SPEED
  let rad := degToRad orientation
  let pos := (c.position.1 + T.cos rad * speed, c.position.2 + T.sin rad * speed)
  { c with orientation := orientation, speed := speed, position := pos,
           path := c.path ++ [pos], steps := c.steps + 1 }

/-- First loop of `getAngleToTarget`'s normalization:
`while (angleDiff > 180.f) angleDiff -= 360.f;`. -/
def lowerSigned (d : ℚ) : ℚ :=
  if h : 180 < d then lowerSigned (d - 360) else d
termination_by ⌈d⌉.toNat
decreasing_by
  have hd : (181 : ℤ) ≤ ⌈d⌉ := by
    rw [Int.le_ceil_iff]
    push_cast
    linarith
  have hstep : ⌈d - 360⌉ = ⌈d⌉ - 360 := by
    rw [show d - 360 = d + ((-360 : ℤ) : ℚ) by push_cast; ring]
    rw [Int.ceil_add_int]; omega
  rw [hstep]
  omega

/-- Second loop of `getAngleToTarget`'s normalization:
`while (angleDiff < -180.f) angleDiff += 360.f;`. -/
def raiseSigned (d : ℚ) : ℚ :=
  if h : d < -180 then raiseSigned (d + 360) else d
termination_by (⌈-d⌉).toNat
decreasing_by
  have hd : (181 : ℤ) ≤ ⌈-d⌉ := by
    rw [Int.le_ceil_iff]
    push_cast
    linarith
  have hstep : ⌈-(d + 360)⌉ = ⌈-d⌉ - 360 := by
    rw [show -(d + 360) = -d + ((-360 : ℤ) : ℚ) by push_cast; ring]
    rw [Int.ceil_add_int]; omega
  rw [hstep]
  omega

/-- PSO `Car::getAngleToTarget`: signed heading error in `(-180, 180]`
(for library `atan2` outputs; arbitrary rationals are normalized by the same
two loops). -/
def getAngleToTarget (T : Trig) (c : CarPSO) (target : ℚ × ℚ) : ℚ :=
  let targetAngle := T.atan2 (target.2 - c.position.2) (target.1 - c.position.1) * 180 / piQ
  raiseSigned (lowerSigned (targetAngle - c.orientation))

/-- Local state of the PSO `evaluate` loop: the car plus the local variables
`totalReward`, `zeroSpeedSteps`, `lastDistToCheckpoint` (stored squared), and
the executed-iteration count. -/
structure PSOEvalSt where
  car : CarPSO
  totalReward : ℚ
  zeroSpeedSteps : ℕ
  lastDist2 : ℚ
  iters : ℕ
deriving DecidableEq

/-- One iteration of the PSO `evaluate` loop body; `Sum.inr` is a `break`.
As in the GA variant, every `break` fires before the trailing
`totalReward += reward;`, so the final iteration's locally assembled reward
(including the +100 checkpoint and +1000 completion bonuses) is discarded. -/
def psoLoopIter (T : Trig) (s : PSOEvalSt) : PSOEvalSt ⊕ PSOEvalSt :=
  let c0 := { s.car with steps := s.car.steps + 1 }
  if c0.currentCheckpoint ≥ c0.checkpointPositions.length then
    .inr { car := { c0 with done := true }, totalReward := s.totalReward,
           zeroSpeedSteps := s.zeroSpeedSteps, lastDist2 := s.lastDist2, iters := s.iters + 1 }
  else
    let targetPoint := c0.checkpointPositions.getD c0.currentCheckpoint (0, 0)
    let distSq := dist2 c0.position targetPoint
    let angleDiff := getAngleToTarget T c0 targetPoint
    let r1 : ℚ := if distSq < s.lastDist2 then 0 + 1 else 0 - 1 / 2
    let r2 := if |angleDiff| < 45 then r1 + c0.speed * (1 / 5) else r1
    -- checkpoint branch: (reward, car, updated lastDist², completion break?)
    let cpr : ℚ × CarPSO × ℚ × Bool :=
      if distSq < 30 * 30 then
        let c1 := { c0 with currentCheckpoint := c0.currentCheckpoint + 1 }
        if c1.currentCheckpoint ≥ c1.checkpointPositions.length then
          (r2 + 100 + 1000, c1, s.lastDist2, true)
        else
          (r2 + 100, c1,
           dist2 c1.position (c1.checkpointPositions.getD c1.currentCheckpoint (0, 0)), false)
      else (r2, c0, s.lastDist2, false)
    if cpr.2.2.2 then
      .inr { car := { cpr.2.1 with done := true }, totalReward := s.totalReward,
             zeroSpeedSteps := s.zeroSpeedSteps, lastDist2 := cpr.2.2.1, iters := s.iters + 1 }
    else
      let zs : ℕ × ℚ × Bool :=
        if cpr.2.1.speed < 1 / 10 then
          (s.zeroSpeedSteps + 1, cpr.1 - 1, decide (s.zeroSpeedSteps + 1 > MAX_ZERO_SPEED_STEPS))
        else (0, cpr.1, false)
      if zs.2.2 then
        .inr { car := { cpr.2.1 with done := true }, totalReward := s.totalReward,
               zeroSpeedSteps := zs.1, lastDist2 := cpr.2.2.1, iters := s.iters + 1 }
      else
        let c2 := applyActionPSO T (actionOfNat (chooseActionPSO cpr.2.1)) cpr.2.1
        -- trailing `lastDistToCheckpoint = distToTarget; totalReward += reward;`
        .inl { car := c2, totalReward := s.totalReward + zs.2.1,
               zeroSpeedSteps := zs.1, lastDist2 := distSq, iters := s.iters + 1 }

/-- The `while (!done && steps < MAX_STEPS_PER_EPISODE)` loop of PSO
`Car::evaluate` (`steps` again grows by two per iteration, so the budget is
never exhausted before the guard fails). -/
def evalLoopPSO (T : Trig) : ℕ → PSOEvalSt → PSOEvalSt
  | 0, s => s
  | fuel + 1, s =>
    if s.car.done = false ∧ s.car.steps < MAX_STEPS_PER_EPISODE_PSO then
      match psoLoopIter T s with
      | .inl s' => evalLoopPSO T fuel s'
      | .inr s' => s'
    else s

/-- Result of one PSO `evaluate` call. -/
structure PSOEvalOut where
  reward : ℚ
  success : Bool
  car : CarPSO
  iters : ℕ
deriving DecidableEq

/-- PSO `Car::reset`: again `position = trainingTrackPoints[0]` has no valid
result on an empty track; the path is cleared and re-seeded with the start
position. -/
def resetPSO (c : CarPSO) : Option CarPSO :=
  match c.trainingTrackPoints with
  | [] => none
  | p0 :: _ => some { c with position := p0, orientation := 0, speed := 0,
                             done := false, steps := 0, currentCheckpoint := 0,
                             path := [p0] }

/-- Body of PSO `Car::evaluate` after its `reset()` call: starting from the
fresh car `c0` and the first stored checkpoint `cp0`
(`checkpointPositions[currentCheckpoint]` at entry), run the loop and scale
the accumulated reward by `0.5 + currentCheckpoint / checkpointPositions.size()`. -/
def evaluatePSOCore (T : Trig) (c0 : CarPSO) (cp0 : ℚ × ℚ) : PSOEvalOut :=
  let s := evalLoopPSO T MAX_STEPS_PER_EPISODE_PSO
    { car := c0, totalReward := 0, zeroSpeedSteps := 0,
      lastDist2 := dist2 c0.position cp0, iters := 0 }
  { reward := s.totalReward *
      (1 / 2 + (s.car.currentCheckpoint : ℚ) / (c0.checkpointPositions.length : ℚ)),
    success := decide (s.car.currentCheckpoint ≥ s.car.checkpointPositions.length),
    car := s.car, iters := s.iters }

/-- PSO `Car::evaluate`.  It calls `reset()` itself, then reads
`checkpointPositions[currentCheckpoint]` (no valid result on an empty
checkpoint list), and proceeds with `evaluatePSOCore`. -/
def evaluatePSO (T : Trig) (c : CarPSO) : Option PSOEvalOut :=
  (resetPSO c).bind fun c0 =>
    match c0.checkpointPositions with
    | [] => none
    | cp0 :: _ => some (evaluatePSOCore T c0 cp0)

theorem psoLoopIter_iters (T : Trig) (s : PSOEvalSt) :
    (psoLoopIter T s).elim PSOEvalSt.iters PSOEvalSt.iters = s.iters + 1 := by
  unfold psoLoopIter
  lift_lets
  extract_lets
  dsimp only
  split_ifs <;> rfl

theorem evalLoopPSO_iters_le (T : Trig) :
    ∀ fuel s, (evalLoopPSO T fuel s).iters ≤ s.iters + fuel := by
  intro fuel
  induction fuel with
  | zero =>
    intro s
    have h0 : evalLoopPSO T 0 s = s := rfl
    rw [h0]
    omega
  | succ fuel ih =>
    intro s
    have hstep : evalLoopPSO T (fuel + 1) s =
        if s.car.done = false ∧ s.car.steps < MAX_STEPS_PER_EPISODE_PSO then
          (match psoLoopIter T s with
           | .inl s' => evalLoopPSO T fuel s'
           | .inr s' => s')
        else s := rfl
    rw [hstep]
    by_cases hguard : s.car.done = false ∧ s.car.steps < MAX_STEPS_PER_EPISODE_PSO
    · rw [if_pos hguard]
      have helim := psoLoopIter_iters T s
      rcases hres : psoLoopIter T s with s' | s'
      · rw [hres] at helim
        simp only [Sum.elim_inl] at helim
        exact (ih s').trans (by omega)
      · rw [hres] at helim
        simp only [Sum.elim_inr] at helim
        show s'.iters ≤ s.iters + (fuel + 1)
        omega
    · rw [if_neg hguard]
      omega

/-- `MUTATION_RATE = 0.1f` in the GA variant. -/
def MUTATION_RATE : ℚ := 1 / 10

/-- `INERTIA_WEIGHT = 0.7f`. -/
def INERTIA_WEIGHT : ℚ := 7 / 10

/-- `COGNITIVE_COEFF = 1.5f`. -/
def COGNITIVE_COEFF : ℚ := 3 / 2

/-- `SOCIAL_COEFF = 1.5f`. -/
def SOCIAL_COEFF : ℚ := 3 / 2

/-- `MAX_VELOCITY = 0.5f`. -/
def MAX_VELOCITY : ℚ := 1 / 2

/-- `POSITION_MIN = -5.f`. -/
def POSITION_MIN : ℚ := -5

/-- `POSITION_MAX = 5.f`. -/
def POSITION_MAX : ℚ := 5

/-- Per-weight mutation step of `createNextGeneration`: with
`chanceDist(rng) < MUTATION_RATE` the weight receives Gaussian noise and is
clamped into `[-5, 5]`; otherwise it is left unchanged.  The random draws are
passed in explicitly. -/
def mutateWeightGA (chance noise w : ℚ) : ℚ :=
  if chance < MUTATION_RATE then clampQ (w + noise) (-5) 5 else w

/-- The mutation loop of `createNextGeneration` over a whole policy vector,
with the per-index random draws passed in as streams. -/
def mutatePolicyGA (chance noise : ℕ → ℚ) : ℕ → List ℚ → List ℚ
  | _, [] => []
  | i, w :: ws => mutateWeightGA (chance i) (noise i) w :: mutatePolicyGA chance noise (i + 1) ws

/-- PSO velocity update for one dimension:
`v = w·v + c1·r1·(pbest − x) + c2·r2·(gbest − x)`, then the two explicit
clamping `if`s of the source. -/
def psoVelocityUpdate (velocity position personalBest globalBest r1 r2 : ℚ) : ℚ :=
  let v := INERTIA_WEIGHT * velocity + COGNITIVE_COEFF * r1 * (personalBest - position)
           + SOCIAL_COEFF * r2 * (globalBest - position)
  let v1 := if v > MAX_VELOCITY then MAX_VELOCITY else v
  if v1 < -MAX_VELOCITY then -MAX_VELOCITY else v1

/-- PSO position update for one dimension: `x += v`, then the two explicit
clamping `if`s of the source. -/
def psoPositionUpdate (position velocity : ℚ) : ℚ :=
  let p := position + velocity
  let p1 := if p > POSITION_MAX then POSITION_MAX else p
  if p1 < POSITION_MIN then POSITION_MIN else p1

/-- The GA variant's run-wide `BestPerformance` record. -/
structure BestPerformanceGA where
  reward : ℚ
  generation : ℕ
  waypoints : ℕ
  weights : List ℚ
deriving DecidableEq

/-- The all-time-best update in the GA training loop:
`if (reward > bestEver.reward) { ... }`. -/
def updateBestEverGA (b : BestPerformanceGA) (reward : ℚ) (generation waypoints : ℕ)
    (weights : List ℚ) : BestPerformanceGA :=
  if reward > b.reward then
    { reward := reward, generation := generation, waypoints := waypoints, weights := weights }
  else b

/-- The PSO variant's run-wide `BestPerformance` record. -/
structure BestPerformancePSO where
  reward : ℚ
  generation : ℕ
  checkpoints : ℕ
  weights : List ℚ
  bestPath : List (ℚ × ℚ)
deriving DecidableEq

/-- The PSO global best: `globalBestFitness`, `globalBestPosition` and the
`bestEver` record, which the training loop writes together under the single
guard `if (reward > globalBestFitness)`. -/
structure GlobalBest where
  fitness : ℚ
  position : List ℚ
  best : BestPerformancePSO
deriving DecidableEq

/-- The global-best update in the PSO training loop. -/
def updateGlobalBest (g : GlobalBest) (reward : ℚ) (particlePosition : List ℚ)
    (generation checkpoints : ℕ) (path : List (ℚ × ℚ)) : GlobalBest :=
  if reward > g.fitness then
    { fitness := reward, position := particlePosition,
      best := { reward := reward, generation := generation, checkpoints := checkpoints,
                weights := particlePosition, bestPath := path } }
  else g

/-- PSO `Particle` (policy-space position, velocity, personal best). -/
structure Particle where
  position : List ℚ
  velocity : List ℚ
  personalBestPosition : List ℚ
  personalBestFitness : ℚ
deriving DecidableEq

/-- `Particle::updatePersonalBest`. -/
def updatePersonalBest (p : Particle) (fitness : ℚ) : Particle :=
  if fitness > p.personalBestFitness then
    { p with personalBestFitness := fitness, personalBestPosition := p.position }
  else p

/-! ## Shared evaluation helpers -/

/-- Evaluate `normAngle` at a concrete value via its residue class. -/
theorem normAngle_eq_of (a b : ℚ) (k : ℤ) (hb0 : 0 ≤ b) (hb1 : b < 360)
    (hab : a = b + 360 * k) : normAngle a = b := by
  rw [hab, normAngle_add_int_mul, normAngle_of_mem b hb0 hb1]

/-- First-seen argmax is the unique positive entry of an otherwise-zero row. -/
theorem selectFromScores_eq_of_unique_pos (s : ℕ → ℚ) (i : ℕ) (hi : i < 5)
    (hpos : 0 < s i) (hz : ∀ j, j < 5 → j ≠ i → s j = 0) : selectFromScores s = i := by
  obtain ⟨hlt, hmax, _⟩ := selectFromScores_spec s
  by_contra hne
  have h1 : s (selectFromScores s) = 0 := hz _ hlt (fun h => hne h)
  have h2 := hmax i hi
  linarith

/-! ## Claim theorems -/

/-- **C9.** For every angle `a` and every integer `k`,
`angleToDiscrete (a + 360·k) = angleToDiscrete a`: the discretization is
invariant under adding whole turns; moreover on `[0, 360)` it is exactly the
fixed-width 10-degree binning `⌊a/10⌋`, with values in `[0, 36)`. -/
theorem C9_angleToDiscrete_periodic :
    (∀ (a : ℚ) (k : ℤ), angleToDiscrete (a + 360 * k) = angleToDiscrete a) ∧
    (∀ a : ℚ, 0 ≤ a → a < 360 →
      angleToDiscrete a = ⌊a / 10⌋ ∧ 0 ≤ angleToDiscrete a ∧ angleToDiscrete a < 36) := by
  constructor
  · intro a k
    unfold angleToDiscrete
    rw [normAngle_add_int_mul]
  · intro a h0 h1
    refine ⟨?_, angleToDiscrete_nonneg a, angleToDiscrete_lt a⟩
    unfold angleToDiscrete
    rw [normAngle_of_mem a h0 h1, NUM_ANGLE_STATES]
    refine Int.emod_eq_of_lt ?_ ?_
    · exact Int.floor_nonneg.mpr (by positivity)
    · rw [Int.floor_lt]
      push_cast
      linarith

/-- Witness for C9 at concrete inputs. -/
theorem C9_witness :
    angleToDiscrete (-35 + 360 * (7 : ℤ)) = angleToDiscrete (-35) ∧
    angleToDiscrete 123 = ⌊(123 : ℚ) / 10⌋ := by
  constructor
  · exact C9_angleToDiscrete_periodic.1 (-35) 7
  · exact (C9_angleToDiscrete_periodic.2 123 (by norm_num) (by norm_num)).1

/-- **C4.** For every policy table and every (discretized) state,
`chooseAction` returns the index of the maximum of the `NUM_ACTIONS` scores
of that table row: an index in `[0, 5)`, not smaller than any score, strictly
greater than every earlier score (first-seen tie-breaking under a strict `>`),
and for a row that is zero except one positive entry it returns that entry's
action.  This holds in both variants. -/
theorem C4_chooseAction_argmax :
    (∀ c : CarGA,
      chooseActionGA c < 5 ∧
      (∀ j, j < 5 → scoresOf c.policyWeights c.orientation c.speed j ≤
        scoresOf c.policyWeights c.orientation c.speed (chooseActionGA c)) ∧
      (∀ j, j < chooseActionGA c → scoresOf c.policyWeights c.orientation c.speed j <
        scoresOf c.policyWeights c.orientation c.speed (chooseActionGA c)) ∧
      (∀ i, i < 5 → 0 < scoresOf c.policyWeights c.orientation c.speed i →
        (∀ j, j < 5 → j ≠ i → scoresOf c.policyWeights c.orientation c.speed j = 0) →
        chooseActionGA c = i)) ∧
    (∀ c : CarPSO,
      chooseActionPSO c < 5 ∧
      (∀ j, j < 5 → scoresOf c.policyWeights c.orientation c.speed j ≤
        scoresOf c.policyWeights c.orientation c.speed (chooseActionPSO c)) ∧
      (∀ j, j < chooseActionPSO c → scoresOf c.policyWeights c.orientation c.speed j <
        scoresOf c.policyWeights c.orientation c.speed (chooseActionPSO c)) ∧
      (∀ i, i < 5 → 0 < scoresOf c.policyWeights c.orientation c.speed i →
        (∀ j, j < 5 → j ≠ i → scoresOf c.policyWeights c.orientation c.speed j = 0) →
        chooseActionPSO c = i)) := by
  constructor
  · intro c
    obtain ⟨h1, h2, h3⟩ := selectFromScores_spec (scoresOf c.policyWeights c.orientation c.speed)
    exact ⟨h1, h2, h3, fun i hi hpos hz =>
      selectFromScores_eq_of_unique_pos _ i hi hpos hz⟩
  · intro c
    obtain ⟨h1, h2, h3⟩ := selectFromScores_spec (scoresOf c.policyWeights c.orientation c.speed)
    exact ⟨h1, h2, h3, fun i hi hpos hz =>
      selectFromScores_eq_of_unique_pos _ i hi hpos hz⟩

/-- A concrete car whose policy row at the state `(angleBin 0, speedBin 0)` is
zero except for a positive entry at action `2` (`ACCELERATE`). -/
def car4 : CarGA :=
  { position := (0, 0), orientation := 0, speed := 0, done := false, steps := 0,
    targetWaypointIndex := 0, trainingTrackPoints := [(0, 0)],
    policyWeights := [0, 0, 1, 0, 0] }

theorem angleToDiscrete_zero : angleToDiscrete 0 = 0 := by
  unfold angleToDiscrete
  rw [normAngle_of_mem 0 le_rfl (by norm_num)]
  norm_num [NUM_ANGLE_STATES]

theorem speedToDiscrete_zero : speedToDiscrete 0 = 0 := by
  unfold speedToDiscrete
  norm_num [NUM_SPEED_STATES]

theorem scoresOf_car4 (a : ℕ) (_ha : a < 5) :
    scoresOf car4.policyWeights car4.orientation car4.speed a =
      [0, 0, 1, 0, 0].getD a 0 := by
  show scoresOf [0, 0, 1, 0, 0] 0 0 a = _
  unfold scoresOf
  rw [angleToDiscrete_zero, speedToDiscrete_zero]
  norm_num [tableIndex, NUM_SPEED_STATES, NUM_ACTIONS]

/-- Witness for C4: on `car4` the selected action is the positive entry. -/
theorem C4_witness : chooseActionGA car4 = 2 := by
  refine (C4_chooseAction_argmax.1 car4).2.2.2 2 (by norm_num) ?_ ?_
  · rw [scoresOf_car4 2 (by norm_num)]
    norm_num
  · intro j hj hne
    rw [scoresOf_car4 j hj]
    interval_cases j <;> simp_all

/-- **C10.** For every policy of the standard length
`36 × 6 × 5 = 1080`, every orientation in `[0, 360)` and non-negative speed,
the flat index computed inside `chooseAction` is within bounds for every
action, so the table read always succeeds (the out-of-range branch of the
embedded lookup is unreachable). -/
theorem C10_chooseAction_index_in_bounds :
    ∀ (policy : List ℚ) (orientation speed : ℚ), policy.length = 1080 →
      0 ≤ orientation → orientation < 360 → 0 ≤ speed →
      ∀ a : ℕ, a < 5 →
        0 ≤ tableIndex (angleToDiscrete orientation) (speedToDiscrete speed) a ∧
        tableIndex (angleToDiscrete orientation) (speedToDiscrete speed) a < 1080 ∧
        (policy[(tableIndex (angleToDiscrete orientation) (speedToDiscrete speed) a).toNat]?).isSome = true := by
  intro policy orientation speed hlen _ _ _ a ha
  have hA0 := angleToDiscrete_nonneg orientation
  have hA1 := angleToDiscrete_lt orientation
  have hS0 := speedToDiscrete_nonneg speed
  have hS1 := speedToDiscrete_le speed
  have hidx : 0 ≤ tableIndex (angleToDiscrete orientation) (speedToDiscrete speed) a ∧
      tableIndex (angleToDiscrete orientation) (speedToDiscrete speed) a < 1080 := by
    unfold tableIndex NUM_SPEED_STATES NUM_ACTIONS
    constructor <;> nlinarith [Int.ofNat_nonneg a, (by exact_mod_cast ha : (a : ℤ) < 5)]
  refine ⟨hidx.1, hidx.2, ?_⟩
  have hlt : (tableIndex (angleToDiscrete orientation) (speedToDiscrete speed) a).toNat <
      policy.length := by
    rw [hlen]
    omega
  rw [List.getElem?_eq_getElem hlt]
  rfl

/-- Witness for C10 at a concrete policy and state. -/
theorem C10_witness :
    0 ≤ tableIndex (angleToDiscrete 123) (speedToDiscrete (7 / 2)) 3 ∧
    tableIndex (angleToDiscrete 123) (speedToDiscrete (7 / 2)) 3 < 1080 ∧
    ((List.replicate 1080 (37 : ℚ))[(tableIndex (angleToDiscrete 123) (speedToDiscrete (7 / 2)) 3).toNat]?).isSome = true :=
  C10_chooseAction_index_in_bounds (List.replicate 1080 37) 123 (7 / 2)
    (by rw [List.length_replicate]) (by norm_num) (by norm_num) (by norm_num) 3 (by norm_num)

/-- **C5.** The run-wide best records (GA `bestEver`, the PSO global best,
each particle's personal best) are overwritten exactly when the new reward is
strictly greater than the stored one, are otherwise unchanged, and hence the
stored best reward is monotonically non-decreasing across a whole run. -/
theorem C5_best_records_strict_improvement :
    (∀ (b : BestPerformanceGA) (r : ℚ) (g w : ℕ) (ws : List ℚ),
       (r ≤ b.reward → updateBestEverGA b r g w ws = b) ∧
       (b.reward < r → updateBestEverGA b r g w ws =
         { reward := r, generation := g, waypoints := w, weights := ws }) ∧
       b.reward ≤ (updateBestEverGA b r g w ws).reward) ∧
    (∀ (gb : GlobalBest) (r : ℚ) (pos : List ℚ) (g c : ℕ) (path : List (ℚ × ℚ)),
       (r ≤ gb.fitness → updateGlobalBest gb r pos g c path = gb) ∧
       (gb.fitness < r → (updateGlobalBest gb r pos g c path).fitness = r) ∧
       gb.fitness ≤ (updateGlobalBest gb r pos g c path).fitness) ∧
    (∀ (p : Particle) (f : ℚ),
       (f ≤ p.personalBestFitness → updatePersonalBest p f = p) ∧
       (p.personalBestFitness < f → (updatePersonalBest p f).personalBestFitness = f) ∧
       p.personalBestFitness ≤ (updatePersonalBest p f).personalBestFitness) ∧
    (∀ (obs : List (ℚ × ℕ × ℕ × List ℚ)) (b : BestPerformanceGA),
       b.reward ≤ (obs.foldl (fun acc o => updateBestEverGA acc o.1 o.2.1 o.2.2.1 o.2.2.2) b).reward) := by
  refine ⟨?_, ?_, ?_, ?_⟩
  · intro b r g w ws
    unfold updateBestEverGA
    refine ⟨fun h => ?_, fun h => ?_, ?_⟩
    · rw [if_neg (by exact not_lt.mpr h)]
    · rw [if_pos h]
    · split_ifs with h
      · exact le_of_lt h
      · exact le_rfl
  · intro gb r pos g c path
    unfold updateGlobalBest
    refine ⟨fun h => ?_, fun h => ?_, ?_⟩
    · rw [if_neg (by exact not_lt.mpr h)]
    · rw [if_pos h]
    · split_ifs with h
      · exact le_of_lt h
      · exact le_rfl
  · intro p f
    unfold updatePersonalBest
    refine ⟨fun h => ?_, fun h => ?_, ?_⟩
    · rw [if_neg (by exact not_lt.mpr h)]
    · rw [if_pos h]
    · split_ifs with h
      · exact le_of_lt h
      · exact le_rfl
  · intro obs
    induction obs with
    | nil => intro b; exact le_rfl
    | cons o obs ih =>
      intro b
      refine le_trans ?_ (ih (updateBestEverGA b o.1 o.2.1 o.2.2.1 o.2.2.2))
      unfold updateBestEverGA
      split_ifs with h
      · exact le_of_lt h
      · exact le_rfl

/-- Witness for C5 at concrete inputs. -/
theorem C5_witness :
    updateBestEverGA { reward := 3, generation := 1, waypoints := 2, weights := [] } 5 4 6 [1] =
      { reward := 5, generation := 4, waypoints := 6, weights := [1] } ∧
    updatePersonalBest { position := [2], velocity := [0], personalBestPosition := [9],
                         personalBestFitness := 7 } 6 =
      { position := [2], velocity := [0], personalBestPosition := [9], personalBestFitness := 7 } := by
  constructor
  · exact (C5_best_records_strict_improvement.1
      { reward := 3, generation := 1, waypoints := 2, weights := [] } 5 4 6 [1]).2.1 (by norm_num)
  · exact (C5_best_records_strict_improvement.2.2.1
      { position := [2], velocity := [0], personalBestPosition := [9],
        personalBestFitness := 7 } 6).1 (by norm_num)

/-- **C6.** After every GA mutation every policy weight stays within
`[-5, 5]` (given it was within bounds before, unmutated weights included);
after every PSO velocity update the velocity component lies within
`[-MAX_VELOCITY, MAX_VELOCITY]` and after every PSO position update the
position component lies within `[POSITION_MIN, POSITION_MAX]`, for any input
velocity/position and any `r1, r2 ∈ [0, 1)`. -/
theorem C6_weight_bounds :
    (∀ chance noise w : ℚ, -5 ≤ w → w ≤ 5 →
       -5 ≤ mutateWeightGA chance noise w ∧ mutateWeightGA chance noise w ≤ 5) ∧
    (∀ (chance noise : ℕ → ℚ) (i : ℕ) (ws : List ℚ), (∀ w ∈ ws, -5 ≤ w ∧ w ≤ 5) →
       ∀ w' ∈ mutatePolicyGA chance noise i ws, -5 ≤ w' ∧ w' ≤ 5) ∧
    (∀ v x pb gb r1 r2 : ℚ, 0 ≤ r1 → r1 < 1 → 0 ≤ r2 → r2 < 1 →
       -MAX_VELOCITY ≤ psoVelocityUpdate v x pb gb r1 r2 ∧
       psoVelocityUpdate v x pb gb r1 r2 ≤ MAX_VELOCITY) ∧
    (∀ x v : ℚ, POSITION_MIN ≤ psoPositionUpdate x v ∧ psoPositionUpdate x v ≤ POSITION_MAX) := by
  have hmut : ∀ chance noise w : ℚ, -5 ≤ w → w ≤ 5 →
      -5 ≤ mutateWeightGA chance noise w ∧ mutateWeightGA chance noise w ≤ 5 := by
    intro chance noise w h0 h1
    unfold mutateWeightGA clampQ
    split_ifs <;> constructor <;> linarith
  refine ⟨hmut, ?_, ?_, ?_⟩
  · intro chance noise i ws
    induction ws generalizing i with
    | nil => intro _ w' hw'; simp [mutatePolicyGA] at hw'
    | cons w ws ih =>
      intro hin w' hw'
      rw [mutatePolicyGA] at hw'
      rcases List.mem_cons.mp hw' with h | h
      · subst h
        exact hmut _ _ w (hin w (List.mem_cons_self w ws)).1 (hin w (List.mem_cons_self w ws)).2
      · exact ih (i + 1) (fun u hu => hin u (List.mem_cons_of_mem _ hu)) w' h
  · intro v x pb gb r1 r2 _ _ _ _
    unfold psoVelocityUpdate MAX_VELOCITY
    dsimp only
    split_ifs <;> constructor <;> linarith
  · intro x v
    unfold psoPositionUpdate POSITION_MIN POSITION_MAX
    dsimp only
    split_ifs <;> constructor <;> linarith

/-- Witness for C6 at concrete inputs. -/
theorem C6_witness :
    (-5 ≤ mutateWeightGA 0 100 3 ∧ mutateWeightGA 0 100 3 ≤ 5) ∧
    (-MAX_VELOCITY ≤ psoVelocityUpdate 10 0 4 (-4) (1 / 2) (1 / 3) ∧
      psoVelocityUpdate 10 0 4 (-4) (1 / 2) (1 / 3) ≤ MAX_VELOCITY) ∧
    (POSITION_MIN ≤ psoPositionUpdate 4 3 ∧ psoPositionUpdate 4 3 ≤ POSITION_MAX) := by
  refine ⟨?_, ?_, ?_⟩
  · exact C6_weight_bounds.1 0 100 3 (by norm_num) (by norm_num)
  · exact C6_weight_bounds.2.2.1 10 0 4 (-4) (1 / 2) (1 / 3)
      (by norm_num) (by norm_num) (by norm_num) (by norm_num)
  · exact C6_weight_bounds.2.2.2 4 3

/-- A GA car travelling at speed 1 (otherwise at the start state of the
standard track head). -/
def car1GA : CarGA :=
  { position := (0, 0), orientation := 0, speed := 1, done := false, steps := 0,
    targetWaypointIndex := 0, trainingTrackPoints := [(0, 0)], policyWeights := [] }

/-- A PSO car travelling at speed 1. -/
def car1PSO : CarPSO :=
  { position := (0, 0), orientation := 0, speed := 1, done := false, steps := 0,
    currentCheckpoint := 0, path := [], trainingTrackPoints := [(0, 0)],
    checkpointPositions := [(0, 0)], policyWeights := [] }

/-- **C1.** The claim says `BRAKE` subtracts the deceleration delta and never
increases speed in both variants.  The GA variant's `applyAction` instead
executes `speed += ACCEL;` on `BRAKE`: from speed 1 it *increases* the speed
to 1.2 (the PSO variant decreases it to 0.8 as specified).  This exhibits the
defect the spec itself flags. -/
theorem C1_brake_increases_speed_in_GA :
    (applyActionGA trig0 Action.BRAKE car1GA).speed = 6 / 5 ∧
    car1GA.speed = 1 ∧ (1 : ℚ) < 6 / 5 ∧
    (applyActionPSO trig0 Action.BRAKE car1PSO).speed = 4 / 5 ∧
    car1PSO.speed = 1 ∧ (4 / 5 : ℚ) < 1 := by
  refine ⟨?_, rfl, by norm_num, ?_, rfl, by norm_num⟩
  · show clampQ (car1GA.speed + ACCEL) 0 MAX_SPEED = 6 / 5
    norm_num [car1GA, clampQ, ACCEL, MAX_SPEED]
  · show clampQ (car1PSO.speed - DECEL) 0 MAX_SPEED = 4 / 5
    norm_num [car1PSO, clampQ, DECEL, MAX_SPEED]

/-- A policy vector of the standard length whose entries are all zero. -/
def zeroPolicy : List ℚ := List.replicate 1080 0

theorem zeroPolicy_getD (n : ℕ) : zeroPolicy.getD n 0 = 0 := by
  unfold zeroPolicy
  rcases lt_or_ge n 1080 with h | h
  · rw [List.getD_eq_getElem _ _ (by rw [List.length_replicate]; exact h)]
    rw [List.getElem_replicate]
  · rw [List.getD_eq_default _ _ (by rw [List.length_replicate]; exact h)]

theorem scoresOf_zeroPolicy (o v : ℚ) (a : ℕ) : scoresOf zeroPolicy o v a = 0 :=
  zeroPolicy_getD _

theorem chooseAction_zeroPolicy_GA (c : CarGA) (hc : c.policyWeights = zeroPolicy) :
    chooseActionGA c = 0 := by
  unfold chooseActionGA selectFromScores
  rw [hc]
  norm_num [argmaxGo, scoresOf_zeroPolicy]

theorem evalLoopGA_succ (T : Trig) (fuel : ℕ) (s : GAEvalSt) :
    evalLoopGA T (fuel + 1) s =
      if s.car.done = false ∧ s.car.steps < MAX_STEPS_PER_EPISODE_GA then
        (match gaLoopIter T s with
         | .inl s' => evalLoopGA T fuel s'
         | .inr s' => s')
      else s := rfl

theorem evalLoopPSO_succ (T : Trig) (fuel : ℕ) (s : PSOEvalSt) :
    evalLoopPSO T (fuel + 1) s =
      if s.car.done = false ∧ s.car.steps < MAX_STEPS_PER_EPISODE_PSO then
        (match psoLoopIter T s with
         | .inl s' => evalLoopPSO T fuel s'
         | .inr s' => s')
      else s := rfl

theorem wrapDiff_of_le (d : ℚ) (h : d ≤ 180) : wrapDiff d = d := by
  rw [wrapDiff, dif_neg (not_lt.mpr h)]

theorem lowerSigned_of_le (d : ℚ) (h : d ≤ 180) : lowerSigned d = d := by
  rw [lowerSigned, dif_neg (not_lt.mpr h)]

theorem raiseSigned_of_ge (d : ℚ) (h : -180 ≤ d) : raiseSigned d = d := by
  rw [raiseSigned, dif_neg (not_lt.mpr h)]

theorem normAngle_neg_five : normAngle (-5) = 355 :=
  normAngle_eq_of (-5) 355 (-1) (by norm_num) (by norm_num) (by norm_num)

theorem wrapDiff_355 : wrapDiff 355 = 5 := by
  rw [wrapDiff, dif_pos (by norm_num)]
  rw [show |(355 : ℚ) - 360| = 5 by rw [show (355 : ℚ) - 360 = -5 by norm_num, abs_neg,
    abs_of_nonneg (by norm_num)]]
  exact wrapDiff_of_le 5 (by norm_num)

/-- The single-waypoint GA car of C2: the lone target coincides with the
start position and the policy is all zeros. -/
def car2GA : CarGA :=
  { position := (0, 0), orientation := 0, speed := 0, done := false, steps := 0,
    targetWaypointIndex := 0, trainingTrackPoints := [(0, 0)], policyWeights := zeroPolicy }

theorem gaLoopIter_car2 :
    gaLoopIter trig0
      { car := { car2GA with steps := 0 }, totalReward := 0, zeroSpeedSteps := 0,
        lastAngleDiff := 360, iters := 0 } =
    .inr { car := { position := (1 / 10, 0), orientation := 355, speed := 1 / 10, done := true,
                    steps := 2, targetWaypointIndex := 1, trainingTrackPoints := [(0, 0)],
                    policyWeights := zeroPolicy },
           totalReward := 0, zeroSpeedSteps := 0, lastAngleDiff := 5, iters := 1 } := by
  unfold gaLoopIter
  norm_num [car2GA, chooseAction_zeroPolicy_GA, actionOfNat, applyActionGA, clampQ,
    TURN_SPEED, ACCEL, MAX_SPEED, MAX_ZERO_SPEED_STEPS, trig0, dist2, degToRad,
    normAngle_neg_five, wrapDiff_355, abs_of_nonneg, abs_of_nonpos]

/-- The single-checkpoint PSO car of C2: the lone checkpoint coincides with
the start position and the policy is all zeros. -/
def car2PSO : CarPSO :=
  { position := (0, 0), orientation := 0, speed := 0, done := false, steps := 0,
    currentCheckpoint := 0, path := [(0, 0)], trainingTrackPoints := [(0, 0)],
    checkpointPositions := [(0, 0)], policyWeights := zeroPolicy }

theorem psoLoopIter_car2 :
    psoLoopIter trig0
      { car := car2PSO, totalReward := 0, zeroSpeedSteps := 0, lastDist2 := 0, iters := 0 } =
    .inr { car := { position := (0, 0), orientation := 0, speed := 0, done := true,
                    steps := 1, currentCheckpoint := 1, path := [(0, 0)],
                    trainingTrackPoints := [(0, 0)], checkpointPositions := [(0, 0)],
                    policyWeights := zeroPolicy },
           totalReward := 0, zeroSpeedSteps := 0, lastDist2 := 0, iters := 1 } := by
  unfold psoLoopIter
  norm_num [car2PSO, getAngleToTarget, lowerSigned_of_le, raiseSigned_of_ge, dist2, trig0,
    MAX_ZERO_SPEED_STEPS, abs_of_nonneg]

theorem evalLoopGA_car2_eq : evalLoopGA trig0 MAX_STEPS_PER_EPISODE_GA
      { car := { car2GA with steps := 0 }, totalReward := 0, zeroSpeedSteps := 0,
        lastAngleDiff := 360, iters := 0 } =
      { car := { position := (1 / 10, 0), orientation := 355, speed := 1 / 10, done := true,
                 steps := 2, targetWaypointIndex := 1, trainingTrackPoints := [(0, 0)],
                 policyWeights := zeroPolicy },
        totalReward := 0, zeroSpeedSteps := 0, lastAngleDiff := 5, iters := 1 } := by
  rw [show MAX_STEPS_PER_EPISODE_GA = 99999 + 1 from rfl, evalLoopGA_succ]
  rw [if_pos ⟨rfl, by norm_num [car2GA, MAX_STEPS_PER_EPISODE_GA]⟩]
  rw [gaLoopIter_car2]

theorem evaluateGA_car2_eq : evaluateGA trig0 car2GA =
    { reward := 0, success := true,
      car := { position := (1 / 10, 0), orientation := 355, speed := 1 / 10, done := true,
               steps := 2, targetWaypointIndex := 1, trainingTrackPoints := [(0, 0)],
               policyWeights := zeroPolicy },
      iters := 1 } := by
  unfold evaluateGA
  rw [evalLoopGA_car2_eq]
  norm_num [MAX_STEPS_PER_EPISODE_GA]

theorem resetPSO_car2_eq : resetPSO car2PSO = some car2PSO := by
  unfold resetPSO car2PSO
  rfl

theorem evalLoopPSO_car2_eq : evalLoopPSO trig0 MAX_STEPS_PER_EPISODE_PSO
      { car := car2PSO, totalReward := 0, zeroSpeedSteps := 0,
        lastDist2 := dist2 car2PSO.position (0, 0), iters := 0 } =
      { car := { position := (0, 0), orientation := 0, speed := 0, done := true,
                 steps := 1, currentCheckpoint := 1, path := [(0, 0)],
                 trainingTrackPoints := [(0, 0)], checkpointPositions := [(0, 0)],
                 policyWeights := zeroPolicy },
        totalReward := 0, zeroSpeedSteps := 0, lastDist2 := 0, iters := 1 } := by
  rw [show dist2 car2PSO.position (0, 0) = 0 by norm_num [car2PSO, dist2]]
  rw [show MAX_STEPS_PER_EPISODE_PSO = 999 + 1 from rfl, evalLoopPSO_succ]
  rw [if_pos ⟨rfl, by norm_num [car2PSO, MAX_STEPS_PER_EPISODE_PSO]⟩]
  rw [psoLoopIter_car2]

theorem evaluatePSOCore_car2_eq : evaluatePSOCore trig0 car2PSO (0, 0) =
    { reward := 0, success := true,
      car := { position := (0, 0), orientation := 0, speed := 0, done := true,
               steps := 1, currentCheckpoint := 1, path := [(0, 0)],
               trainingTrackPoints := [(0, 0)], checkpointPositions := [(0, 0)],
               policyWeights := zeroPolicy },
      iters := 1 } := by
  unfold evaluatePSOCore
  rw [evalLoopPSO_car2_eq]
  norm_num [car2PSO]

theorem evaluatePSO_car2_eq : evaluatePSO trig0 car2PSO =
    some { reward := 0, success := true,
           car := { position := (0, 0), orientation := 0, speed := 0, done := true,
                    steps := 1, currentCheckpoint := 1, path := [(0, 0)],
                    trainingTrackPoints := [(0, 0)], checkpointPositions := [(0, 0)],
                    policyWeights := zeroPolicy },
           iters := 1 } := by
  show (resetPSO car2PSO).bind _ = _
  rw [resetPSO_car2_eq, Option.some_bind]
  show (match car2PSO.checkpointPositions with
    | [] => none
    | cp0 :: _ => some (evaluatePSOCore trig0 car2PSO cp0)) = _
  rw [show car2PSO.checkpointPositions = [(0, 0)] from rfl]
  rw [show (match ([(0, 0)] : List (ℚ × ℚ)) with
    | [] => none
    | cp0 :: _ => some (evaluatePSOCore trig0 car2PSO cp0)) =
      some (evaluatePSOCore trig0 car2PSO (0, 0)) from rfl]
  rw [evaluatePSOCore_car2_eq]

/-- **C2.** For a track whose single target point coincides with the start
position, `evaluate` does return `success = true` after exactly one loop
iteration in both variants — but the returned reward is `0`, not the
completion bonus: the `reward += 100; ...; reward += 1000; done = true;
break;` path exits the loop before `totalReward += reward;`, so the arrival
and completion bonuses are computed into the local `reward` and discarded. -/
theorem C2_single_target_reward_dropped :
    ((evaluateGA trig0 car2GA).reward = 0 ∧ (evaluateGA trig0 car2GA).success = true ∧
     (evaluateGA trig0 car2GA).iters = 1) ∧
    ((evaluatePSO trig0 car2PSO).map PSOEvalOut.reward = some 0 ∧
     (evaluatePSO trig0 car2PSO).map PSOEvalOut.success = some true ∧
     (evaluatePSO trig0 car2PSO).map PSOEvalOut.iters = some 1) := by
  rw [evaluateGA_car2_eq, evaluatePSO_car2_eq]
  norm_num

theorem normAngle_350 : normAngle 350 = 350 :=
  normAngle_of_mem 350 (by norm_num) (by norm_num)

theorem wrapDiff_350 : wrapDiff 350 = 10 := by
  rw [wrapDiff, dif_pos (by norm_num)]
  rw [show |(350 : ℚ) - 360| = 10 by rw [show (350 : ℚ) - 360 = -10 by norm_num, abs_neg,
    abs_of_nonneg (by norm_num)]]
  exact wrapDiff_of_le 10 (by norm_num)

/-- The GA car of C3: the second waypoint sits 1000 units away, far beyond
the 200-unit off-track threshold, so it is unreachable; the policy is all
zeros. -/
def car3GA : CarGA :=
  { position := (0, 0), orientation := 0, speed := 0, done := false, steps := 0,
    targetWaypointIndex := 0, trainingTrackPoints := [(0, 0), (1000, 0)],
    policyWeights := zeroPolicy }

theorem gaLoopIter_car3_one :
    gaLoopIter trig0
      { car := { car3GA with steps := 0 }, totalReward := 0, zeroSpeedSteps := 0,
        lastAngleDiff := 360, iters := 0 } =
    .inl { car := { position := (1 / 10, 0), orientation := 355, speed := 1 / 10, done := false,
                    steps := 2, targetWaypointIndex := 1,
                    trainingTrackPoints := [(0, 0), (1000, 0)], policyWeights := zeroPolicy },
           totalReward := 4598 / 45, zeroSpeedSteps := 0, lastAngleDiff := 5, iters := 1 } := by
  unfold gaLoopIter
  norm_num [car3GA, chooseAction_zeroPolicy_GA, actionOfNat, applyActionGA, clampQ,
    TURN_SPEED, ACCEL, MAX_SPEED, MAX_ZERO_SPEED_STEPS, trig0, dist2, degToRad,
    normAngle_neg_five, wrapDiff_355, abs_of_nonneg, abs_of_nonpos]

theorem gaLoopIter_car3_two :
    gaLoopIter trig0
      { car := { position := (1 / 10, 0), orientation := 355, speed := 1 / 10, done := false,
                 steps := 2, targetWaypointIndex := 1,
                 trainingTrackPoints := [(0, 0), (1000, 0)], policyWeights := zeroPolicy },
        totalReward := 4598 / 45, zeroSpeedSteps := 0, lastAngleDiff := 5, iters := 1 } =
    .inr { car := { position := (3 / 10, 0), orientation := 350, speed := 1 / 5, done := true,
                    steps := 4, targetWaypointIndex := 1,
                    trainingTrackPoints := [(0, 0), (1000, 0)], policyWeights := zeroPolicy },
           totalReward := 4598 / 45, zeroSpeedSteps := 0, lastAngleDiff := 10, iters := 2 } := by
  unfold gaLoopIter
  norm_num [chooseAction_zeroPolicy_GA, actionOfNat, applyActionGA, clampQ,
    TURN_SPEED, ACCEL, MAX_SPEED, MAX_ZERO_SPEED_STEPS, trig0, dist2, degToRad,
    normAngle_350, wrapDiff_350, abs_of_nonneg, abs_of_nonpos]

theorem evaluateGA_car3_eq : evaluateGA trig0 car3GA =
    { reward := 4598 / 45, success := false,
      car := { position := (3 / 10, 0), orientation := 350, speed := 1 / 5, done := true,
               steps := 4, targetWaypointIndex := 1,
               trainingTrackPoints := [(0, 0), (1000, 0)], policyWeights := zeroPolicy },
      iters := 2 } := by
  have hloop : evalLoopGA trig0 MAX_STEPS_PER_EPISODE_GA
      { car := { car3GA with steps := 0 }, totalReward := 0, zeroSpeedSteps := 0,
        lastAngleDiff := 360, iters := 0 } =
      { car := { position := (3 / 10, 0), orientation := 350, speed := 1 / 5, done := true,
                 steps := 4, targetWaypointIndex := 1,
                 trainingTrackPoints := [(0, 0), (1000, 0)], policyWeights := zeroPolicy },
        totalReward := 4598 / 45, zeroSpeedSteps := 0, lastAngleDiff := 10, iters := 2 } := by
    rw [show MAX_STEPS_PER_EPISODE_GA = 99998 + 1 + 1 from rfl, evalLoopGA_succ]
    rw [if_pos ⟨rfl, by norm_num [car3GA, MAX_STEPS_PER_EPISODE_GA]⟩]
    rw [gaLoopIter_car3_one]
    show evalLoopGA trig0 (99998 + 1) _ = _
    rw [evalLoopGA_succ]
    rw [if_pos ⟨rfl, by norm_num [MAX_STEPS_PER_EPISODE_GA]⟩]
    rw [gaLoopIter_car3_two]
  unfold evaluateGA
  rw [hloop]
  norm_num [MAX_STEPS_PER_EPISODE_GA]

/-- **C3.** For the GA variant with a target placed far beyond the off-track
threshold (unreachable), `evaluate` terminates after 2 loop iterations with
`success = false` — but the returned reward is `+4598/45 ≈ +102.2`, not
strongly negative: the trivially-arrived first waypoint contributes `+100`
to `totalReward`, while the `-200` off-track penalty of the final iteration
is discarded because `done = true; reward -= 200.f; break;` exits the loop
before `totalReward += reward;`.  The loop-iteration count of `evaluate`
never exceeds the episode step cap, in either variant, for any policy, track
and trigonometry. -/
theorem C3_unreachable_target_terminates_reward_not_negative :
    ((evaluateGA trig0 car3GA).success = false ∧
     (evaluateGA trig0 car3GA).reward = 4598 / 45 ∧ (0 : ℚ) < 4598 / 45 ∧
     (evaluateGA trig0 car3GA).iters = 2) ∧
    (∀ (T : Trig) (c : CarGA), (evaluateGA T c).iters ≤ MAX_STEPS_PER_EPISODE_GA) ∧
    (∀ (T : Trig) (c : CarPSO) (out : PSOEvalOut), evaluatePSO T c = some out →
       out.iters ≤ MAX_STEPS_PER_EPISODE_PSO) := by
  refine ⟨?_, ?_, ?_⟩
  · rw [evaluateGA_car3_eq]
    norm_num
  · intro T c
    unfold evaluateGA
    dsimp only
    exact (evalLoopGA_iters_le T _ _).trans (by norm_num)
  · intro T c out h
    unfold evaluatePSO at h
    rcases hr : resetPSO c with _ | c0
    · rw [hr] at h
      simp at h
    · rw [hr, Option.some_bind] at h
      rcases hcp : c0.checkpointPositions with _ | ⟨cp0, rest⟩
      · rw [hcp] at h
        simp at h
      · rw [hcp] at h
        rw [Option.some.injEq] at h
        subst h
        unfold evaluatePSOCore
        dsimp only
        exact (evalLoopPSO_iters_le T _ _).trans (by norm_num)

/-- Witness for C3's quantified conjuncts at a concrete input. -/
theorem C3_witness :
    ({ reward := 0, success := true,
       car := { position := (0, 0), orientation := 0, speed := 0, done := true,
                steps := 1, currentCheckpoint := 1, path := [(0, 0)],
                trainingTrackPoints := [(0, 0)], checkpointPositions := [(0, 0)],
                policyWeights := zeroPolicy },
       iters := 1 } : PSOEvalOut).iters ≤ MAX_STEPS_PER_EPISODE_PSO :=
  C3_unreachable_target_terminates_reward_not_negative.2.2 trig0 car2PSO _ evaluatePSO_car2_eq

theorem resetGA_congr (c1 c2 : CarGA) (hp : c1.policyWeights = c2.policyWeights)
    (ht : c1.trainingTrackPoints = c2.trainingTrackPoints) : resetGA c1 = resetGA c2 := by
  unfold resetGA
  rw [ht, hp]

theorem resetPSO_congr (c1 c2 : CarPSO) (hp : c1.policyWeights = c2.policyWeights)
    (ht : c1.trainingTrackPoints = c2.trainingTrackPoints)
    (hcp : c1.checkpointPositions = c2.checkpointPositions) : resetPSO c1 = resetPSO c2 := by
  unfold resetPSO
  rw [ht, hp, hcp]

/-- **C7.** The rollout evaluator is deterministic and draws no randomness:
its result (reward, success flag, final car — including the recorded path in
the PSO variant — and iteration count) is a function of the policy weights
and the stored track data alone.  For the PSO variant (whose `evaluate`
calls `reset()` itself) two cars agreeing on policy, waypoints and
checkpoints produce identical results whatever their remaining mutable
state; for the GA variant (whose `evaluate` starts from the current state)
the same holds for the freshly constructed cars the training loop evaluates. -/
theorem C7_evaluate_deterministic :
    (∀ (T : Trig) (c1 c2 : CarGA),
       c1.policyWeights = c2.policyWeights →
       c1.trainingTrackPoints = c2.trainingTrackPoints →
       evaluateGAFresh T c1 = evaluateGAFresh T c2) ∧
    (∀ (T : Trig) (c1 c2 : CarPSO),
       c1.policyWeights = c2.policyWeights →
       c1.trainingTrackPoints = c2.trainingTrackPoints →
       c1.checkpointPositions = c2.checkpointPositions →
       evaluatePSO T c1 = evaluatePSO T c2) := by
  constructor
  · intro T c1 c2 hp ht
    unfold evaluateGAFresh
    rw [resetGA_congr c1 c2 hp ht]
  · intro T c1 c2 hp ht hcp
    unfold evaluatePSO
    rw [resetPSO_congr c1 c2 hp ht hcp]

/-- A PSO car with the same policy and track data as `car2PSO` but an
arbitrarily different mutable state. -/
def car2PSOdirty : CarPSO :=
  { position := (9, 9), orientation := 77, speed := 3, done := true, steps := 123,
    currentCheckpoint := 1, path := [], trainingTrackPoints := [(0, 0)],
    checkpointPositions := [(0, 0)], policyWeights := zeroPolicy }

/-- Witness for C7: the dirty-state car evaluates identically. -/
theorem C7_witness : evaluatePSO trig0 car2PSO = evaluatePSO trig0 car2PSOdirty :=
  C7_evaluate_deterministic.2 trig0 car2PSO car2PSOdirty rfl rfl rfl

/-- **C8, counterexample.**  The claim says a track with fewer than 2 points
is rejected with an `InvalidTrack` error before any evaluation and no
rollout is ever attempted on it.  In the code there is no validation at all:
on this one-point track the construction-plus-evaluation pipeline runs a
rollout to completion (and immediately reports success). -/
theorem C8_counterexample_one_point_track_is_evaluated :
    car2GA.trainingTrackPoints.length < 2 ∧
    evaluateGAFresh trig0 car2GA =
      some { reward := 0, success := true,
             car := { position := (1 / 10, 0), orientation := 355, speed := 1 / 10, done := true,
                      steps := 2, targetWaypointIndex := 1, trainingTrackPoints := [(0, 0)],
                      policyWeights := zeroPolicy },
             iters := 1 } := by
  constructor
  · norm_num [car2GA]
  · unfold evaluateGAFresh
    rw [show resetGA car2GA = some car2GA from rfl]
    rw [Option.map_some', evaluateGA_car2_eq]

/-- **C8, amended.**  The code performs no track-size validation and reports
no error value: evaluation has no valid result exactly when the very first
vector access fails — the empty waypoint list (both variants), or the empty
checkpoint list (PSO variant) — while every non-empty track, a single-point
track included, is evaluated normally. -/
theorem C8_no_validation_only_empty_track_fails :
    (∀ (T : Trig) (c : CarGA), c.trainingTrackPoints = [] → evaluateGAFresh T c = none) ∧
    (∀ (T : Trig) (c : CarGA), c.trainingTrackPoints ≠ [] →
       (evaluateGAFresh T c).isSome = true) ∧
    (∀ (T : Trig) (c : CarPSO), c.trainingTrackPoints = [] ∨ c.checkpointPositions = [] →
       evaluatePSO T c = none) ∧
    (∀ (T : Trig) (c : CarPSO), c.trainingTrackPoints ≠ [] → c.checkpointPositions ≠ [] →
       (evaluatePSO T c).isSome = true) := by
  refine ⟨?_, ?_, ?_, ?_⟩
  · intro T c h
    unfold evaluateGAFresh resetGA
    rw [h]
    rfl
  · intro T c h
    unfold evaluateGAFresh resetGA
    rcases htr : c.trainingTrackPoints with _ | ⟨p0, rest⟩
    · exact absurd htr h
    · rfl
  · intro T c h
    unfold evaluatePSO resetPSO
    rcases h with h | h
    · rw [h]
      rfl
    · rcases htr : c.trainingTrackPoints with _ | ⟨p0, rest⟩
      · rfl
      · rw [Option.some_bind]
        dsimp only
        rw [h]
  · intro T c h1 h2
    unfold evaluatePSO resetPSO
    rcases htr : c.trainingTrackPoints with _ | ⟨p0, rest⟩
    · exact absurd htr h1
    · rw [Option.some_bind]
      dsimp only
      rcases hcp : c.checkpointPositions with _ | ⟨cp0, rest2⟩
      · exact absurd hcp h2
      · rfl

/-- An empty-track GA car. -/
def carEmptyGA : CarGA :=
  { position := (0, 0), orientation := 0, speed := 0, done := false, steps := 0,
    targetWaypointIndex := 0, trainingTrackPoints := [], policyWeights := [] }

/-- Witness for C8's amended statement at concrete inputs. -/
theorem C8_witness :
    evaluateGAFresh trig0 carEmptyGA = none ∧
    (evaluateGAFresh trig0 car2GA).isSome = true := by
  constructor
  · exact C8_no_validation_only_empty_track_fails.1 trig0 carEmptyGA rfl
  · exact C8_no_validation_only_empty_track_fails.2.1 trig0 car2GA (by
      rw [show car2GA.trainingTrackPoints = [(0, 0)] from rfl]
      exact List.cons_ne_nil _ _)

end SpeedRacers
